import Mathlib

/-!
# Verification development for the three2six transpiler core

Shallow embedding of the three2six source files
(`src/three2six/fixers.py`, `src/three2six/transpile.py`,
`src/three2six/checkers.py`) over a fragment of the Python `ast` node
universe, together with theorems settling the frozen claims about the
natural-language specification.

Modelling conventions:
* Python strings are Lean `String`s; Python string comparison (used for
  version strings) is code-point lexicographic (`pyLe` below).
* `ast.Dict` keeps parallel `keys`/`values` lists in CPython; the parser
  invariant `len(keys) = len(values)` always holds, so the model zips them
  into one list of `(Option key, value)` items (a `none` key is a `**`
  spread), exactly the pairing `zip(node.keys, node.values)` used by the
  source.
* Mutable Python sets of effects become lists with insert-if-absent
  (set semantics); exceptions (`TypeError`, `AssertionError`,
  `common.FixerError`, `RuntimeError`) become `Except String`.
* In-place `ast` mutation becomes functional update; aliasing through the
  `collapsed_chain_values` list (which holds references into
  `chain_values`) is modelled with an explicit index/store rendering of
  the same loop, see `collapseStep`.
-/

namespace ThreeToSix

/-! ## Python string comparison (version ordering)

CPython compares `str` values lexicographically by code point; a strict
prefix is smaller. `FixerBase.is_required_for` etc. compare version
strings with `<=` directly. -/

/-- Strict code-point lexicographic comparison of char lists, as CPython
`str.__lt__` does. -/
def pyLtChars : List Char → List Char → Bool
  | [], [] => false
  | [], _ :: _ => true
  | _ :: _, [] => false
  | a :: as_, b :: bs => if a < b then true else if b < a then false else pyLtChars as_ bs

/-- Python `a <= b` on strings: equal or strictly lexicographically less. -/
def pyLe (a b : String) : Bool := a == b || pyLtChars a.data b.data

/-! ## Python string primitives

The `str` methods the source relies on, implemented over the character
list so that every use evaluates by kernel reduction. -/

/-- Python `str.lower` (ASCII is all that the pass names use). -/
def pyLower (s : String) : String := ⟨s.data.map Char.toLower⟩

/-- Python `str.replace(c, "")` for a single-character pattern and empty
replacement — the only shape of `replace` the source uses
(`.replace("_", "").replace("-", "")`): every occurrence of the character
is removed. -/
def pyRemoveChar (c : Char) (s : String) : String := ⟨s.data.filter (fun x => x != c)⟩

/-- Python `str.strip()`: drop leading and trailing whitespace. -/
def pyStrip (s : String) : String :=
  ⟨((s.data.dropWhile Char.isWhitespace).reverse.dropWhile Char.isWhitespace).reverse⟩

/-- Python `str.endswith`. -/
def pyEndsWith (s suffix : String) : Bool := suffix.data.isSuffixOf s.data

/-- Python `s[:-n]` for `0 < n ≤ len(s)`: drop the last `n` characters. -/
def pyDropRight (s : String) (n : Nat) : String := ⟨s.data.take (s.data.length - n)⟩

/-- Python single-character `c in s`. -/
def pyContainsChar (s : String) (c : Char) : Bool := s.data.contains c

/-! ## fixers.VersionInfo and the applicability predicates (fixers.py 25-76) -/

/-- `fixers.VersionInfo`: the version window carried by every fixer. -/
structure VersionInfo where
  apply_since : String
  apply_until : String
  works_since : String
  works_until : Option String
deriving DecidableEq, Repr

/-- `VersionInfo.__init__`: `works_since` defaults to `apply_since` when not
given, `works_until` defaults to `None`. -/
def VersionInfo.make (apply_since apply_until : String)
    (works_since works_until : Option String) : VersionInfo :=
  { apply_since := apply_since
    apply_until := apply_until
    works_since :=
      match works_since with
      | none => apply_since
      | some w => w
    works_until := works_until }

/-- `FixerBase.is_required_for`: `apply_since <= version <= apply_until`. -/
def VersionInfo.is_required_for (nfo : VersionInfo) (version : String) : Bool :=
  pyLe nfo.apply_since version && pyLe version nfo.apply_until

/-- `FixerBase.is_compatible_with`:
`works_since <= version and (works_until is None or version <= works_until)`. -/
def VersionInfo.is_compatible_with (nfo : VersionInfo) (version : String) : Bool :=
  pyLe nfo.works_since version &&
    (match nfo.works_until with
     | none => true
     | some wu => pyLe version wu)

/-- `FixerBase.is_applicable_to`. -/
def VersionInfo.is_applicable_to (nfo : VersionInfo) (src_version tgt_version : String) : Bool :=
  nfo.is_compatible_with src_version && nfo.is_required_for tgt_version

/-! ## The ast fragment

The node kinds the core engine manipulates: literals, bare names,
spreads, containers, mappings, calls, binary operations and attribute
access; statements are expression statements and `from … import …`
(enough for the checker and fixer claims). Contexts and operators are
leaf kinds. -/

/-- `ast.expr_context` (leaf kind). -/
inductive Ctx
  | load
  | store
deriving DecidableEq, Repr

/-- `ast.operator` (leaf kind); `Add` is the operator the unpacking fixer
introduces. -/
inductive Op
  | add
  | sub
  | mult
deriving DecidableEq, Repr

/-- The expression fragment of the Python `ast` node universe.
`dict` items pair an optional key with a value (`none` key = `**` spread);
`call` keywords pair an optional argument name with a value (`none` name =
`**` spread), like `ast.keyword`. -/
inductive Expr
  | name (id : String) (ctx : Ctx)
  | num (n : Int)
  | str (s : String)
  | starred (value : Expr)
  | list (elts : List Expr)
  | set (elts : List Expr)
  | tuple (elts : List Expr)
  | dict (items : List (Option Expr × Expr))
  | call (func : Expr) (args : List Expr) (keywords : List (Option String × Expr))
  | binop (left : Expr) (op : Op) (right : Expr)
  | attrib (value : Expr) (attr : String) (ctx : Ctx)

/-- `ast.alias` as it appears in `ImportFrom.names`. -/
structure AliasDecl where
  name : String
  asname : Option String
deriving DecidableEq, Repr

/-- The statement fragment: expression statements and
`from module import names`. -/
inductive Stmt
  | exprStmt (value : Expr)
  | importFrom (module : Option String) (names : List AliasDecl)

/-- `ast.Module` is its list of body statements here. -/
abbrev Module := List Stmt

/-! ## Fixer effects (fixers.py 47-55)

`common.ImportDecl` is declared in `common.py`, which is not among the
source files; per the spec's EffectSet it is a pair of a module name and
an optional member. Modelled from the spec: `required_imports` and
`module_declarations` are sets (duplicates collapse), rendered as lists
with insert-if-absent. -/

/-- `common.ImportDecl` (modelled from the spec: `common.py` is not in the
sources; the EffectSet holds `(module, optional_member)` pairs). -/
structure ImportDecl where
  module : String
  import_name : Option String
deriving DecidableEq, Repr

/-- The mutable per-fixer effect state of `FixerBase.__init__`. -/
structure Effects where
  required_imports : List ImportDecl
  module_declarations : List String
deriving DecidableEq, Repr

/-- Python `set.add` on `required_imports`. -/
def Effects.addImport (eff : Effects) (d : ImportDecl) : Effects :=
  if d ∈ eff.required_imports then eff
  else { eff with required_imports := eff.required_imports ++ [d] }

/-- Fresh fixer state (`FixerBase.__init__`: two empty sets). -/
def emptyEffects : Effects := ⟨[], []⟩

/-! ## Node-kind predicates (fixers.py 15-22, 496-501) -/

/-- `isinstance(node, ast.Starred)`. -/
def isStarred : Expr → Bool
  | .starred _ => true
  | _ => false

/-- `ContainerNodes = (ast.List, ast.Set, ast.Tuple)`. -/
def isContainerNode : Expr → Bool
  | .list _ | .set _ | .tuple _ => true
  | _ => false

/-- `ArgUnpackNodes = (ast.Call, ast.List, ast.Tuple, ast.Set)`. -/
def isArgUnpackNode : Expr → Bool
  | .call .. | .list _ | .tuple _ | .set _ => true
  | _ => false

/-- `KwArgUnpackNodes = (ast.Call, ast.Dict)`. -/
def isKwArgUnpackNode : Expr → Bool
  | .call .. | .dict _ => true
  | _ => false

/-- The `LeafNodes` of the fragment: literals and bare names (operator and
context kinds are not free-standing nodes here). -/
def isLeafNode : Expr → Bool
  | .name .. | .num _ | .str _ => true
  | _ => false

/-- `isinstance(node, ast.Dict)`. -/
def isDictLiteral : Expr → Bool
  | .dict _ => true
  | _ => false

/-- `fixers.is_dict_call`: a `Call` whose func is the bare name `dict`
(the context is not inspected by the source). -/
def is_dict_call : Expr → Bool
  | .call (.name "dict" _) _ _ => true
  | _ => false

/-! ## Interleaving detectors (fixers.py 511-545) -/

/-- Loop body of `_has_stararg_g12n`: anything after a `*` element means
the fix must be applied; the flag is tested before being updated. -/
def starargLoop : List Expr → Bool → Bool
  | [], _ => false
  | arg :: rest, hasStarredArg =>
    if hasStarredArg then true else starargLoop rest (isStarred arg)

/-- `UnpackingGeneralizationsFixer._has_stararg_g12n` (the `TypeError`
branch is unreachable behind the `ArgUnpackNodes` guard of `visit_expr`;
it is rendered as `false` here). -/
def has_stararg_g12n : Expr → Bool
  | .call _ args _ => starargLoop args false
  | .list elts | .tuple elts | .set elts => starargLoop elts false
  | _ => false

/-- Loop of `_has_starstarargs_g12n` over `Call.keywords`
(`kw.arg is None` marks a `**` spread). -/
def kwstarLoopKeywords : List (Option String × Expr) → Bool → Bool
  | [], _ => false
  | kw :: rest, hasKwstarredArg =>
    if hasKwstarredArg then true else kwstarLoopKeywords rest kw.1.isNone

/-- Loop of `_has_starstarargs_g12n` over `Dict.keys`
(a `None` key marks a `**` spread). -/
def kwstarLoopKeys : List (Option Expr × Expr) → Bool → Bool
  | [], _ => false
  | it :: rest, hasKwstarredArg =>
    if hasKwstarredArg then true else kwstarLoopKeys rest it.1.isNone

/-- `UnpackingGeneralizationsFixer._has_starstarargs_g12n` (the
`TypeError` branch is unreachable behind the `KwArgUnpackNodes` guard). -/
def has_starstararg_g12n : Expr → Bool
  | .call _ _ kws => kwstarLoopKeywords kws false
  | .dict items => kwstarLoopKeys items false
  | _ => false

/-! ## Rebuilding helpers (fixers.py 547-580) -/

/-- `UnpackingGeneralizationsFixer._node_with_elts`: put a new element
list back into the original node kind (a `Call` keeps its func and
keywords, mirroring the in-place `node.args = new_elts`). -/
def node_with_elts (node : Expr) (newElts : List Expr) : Except String Expr :=
  match node with
  | .call f _ kws => .ok (.call f newElts kws)
  | .list _ => .ok (.list newElts)
  | .set _ => .ok (.set newElts)
  | .tuple _ => .ok (.tuple newElts)
  | _ => .error "TypeError: Unexpected node type"

/-- `UnpackingGeneralizationsFixer._node_with_binop`: attach the folded
concatenation according to the original node kind. -/
def node_with_binop (node : Expr) (binop : Expr) : Except String Expr :=
  match node with
  | .call f _ kws => .ok (.call f [.starred binop] kws)
  | .list _ => .ok binop
  | .set _ => .ok (.call (.name "set" .load) [binop] [])
  | .tuple _ => .ok (.call (.name "tuple" .load) [binop] [])
  | _ => .error "TypeError: Unexpected node type"

/-! ## Positional-spread expansion (fixers.py 582-663) -/

/-- Replace the last element of a list (Python `operands[-1] = x`). -/
def setLast (l : List α) (x : α) : List α := l.dropLast ++ [x]

/-- The element loop of `expand_stararg_g12n`, carrying the `operands`
accumulator whose last element is the literal-list segment currently
being filled (the `assert isinstance(tail_list, ast.List)` is the
`.error` branch). -/
def starargExpandLoop : List Expr → List Expr → Except String (List Expr)
  | [], operands => .ok operands
  | elt :: rest, operands => do
    match operands.getLast? with
    | some (.list tailElts) =>
      let operands' ←
        match elt with
        | .starred val =>
          match val with
          | .list velts | .set velts | .tuple velts =>
            -- spread of a container literal: extend the tail list in place
            .ok (setLast operands (.list (tailElts ++ velts)))
          | _ =>
            -- opaque iterable: materialize as list(val) and open a new segment
            let newValNode := Expr.call (.name "list" .load) [val] []
            let ops :=
              if tailElts.isEmpty then setLast operands newValNode
              else operands ++ [newValNode]
            .ok (ops ++ [Expr.list []])
        | _ =>
          -- ordinary element: append to the tail list
          .ok (setLast operands (.list (tailElts ++ [elt])))
      starargExpandLoop rest operands'
    | _ => .error "AssertionError: isinstance(tail_list, ast.List)"

/-- `UnpackingGeneralizationsFixer.expand_stararg_g12n`:
`fn(*x, *[1, 2], z) -> fn(*(list(x) + [1, 2, z]))`. -/
def expand_stararg_g12n (node : Expr) : Except String Expr := do
  let elts ←
    match node with
    | .call _ args _ => .ok args
    | .list es | .set es | .tuple es => .ok es
    | _ => .error "TypeError: Unexpected node"
  let operands ← starargExpandLoop elts [Expr.list []]
  -- drop a trailing empty literal-list segment
  let operands ←
    match operands.getLast? with
    | some (.list tailElts) =>
      .ok (if tailElts.isEmpty then operands.dropLast else operands)
    | _ => .error "AssertionError: isinstance(tail_list, ast.List)"
  match operands with
  | [o] =>
    match o with
    | .list tailElts => node_with_elts node tailElts
    | _ => .error "AssertionError: isinstance(tail_list, ast.List)"
  | o1 :: o2 :: rest =>
    let binop := rest.foldl (fun b o => Expr.binop b .add o) (Expr.binop o1 .add o2)
    node_with_binop node binop
  | [] => .error "RuntimeError: This should not happen"

/-! ## Keyword-spread expansion (fixers.py 665-777)

`collapsed_chain_values` holds *references* into `chain_values`: merging
a Dict chain value into the previous one mutates an object that is still
an element of `chain_values` (which the multi-value branch later reads).
The loop is therefore rendered with an explicit store: `chain_values` is
the store, `collapsed_chain_values` is a list of indices into it, and a
merge functionally updates the store at the merged-into index. -/

/-- Chain values of a `Dict` node: an explicit pair becomes a single-entry
dict literal, a `**` spread contributes its operand directly. -/
def dictChainValues (items : List (Option Expr × Expr)) : List Expr :=
  items.map fun it =>
    match it.1 with
    | none => it.2
    | some k => Expr.dict [(some k, it.2)]

/-- Chain values of a `Call` node: an explicit keyword becomes a
single-entry dict literal keyed by `ast.Str(kw.arg)`, a `**` spread
contributes its operand directly. -/
def callChainValues (kws : List (Option String × Expr)) : List Expr :=
  kws.map fun kw =>
    match kw.1 with
    | none => kw.2
    | some a => Expr.dict [(some (Expr.str a), kw.2)]

/-- `prev_chain_val.keys.append(key); prev_chain_val.values.append(val)`
for every entry: append the second dict's items to the first. -/
def dictMergeInto (prev chainVal : Expr) : Expr :=
  match prev, chainVal with
  | .dict prevItems, .dict cvItems => .dict (prevItems ++ cvItems)
  | _, _ => prev

/-- One iteration of the collapse loop at chain-value index `i`: append
`i` when `collapsed_chain_values` is empty or the previous value is not
an adjacent Dict/Dict pair, otherwise merge into the previous value
(mutating the store). -/
def collapseStep (acc : List Expr × List Nat) (i : Nat) : List Expr × List Nat :=
  let store := acc.1
  let collapsed := acc.2
  match collapsed.getLast? with
  | none => (store, collapsed ++ [i])
  | some j =>
    let chainVal := store.getD i (.name "" .load)
    let prev := store.getD j (.name "" .load)
    if isDictLiteral chainVal && isDictLiteral prev then
      (store.set j (dictMergeInto prev chainVal), collapsed)
    else (store, collapsed ++ [i])

/-- The whole collapse loop: returns the final store (the post-mutation
`chain_values`) and the indices making up `collapsed_chain_values`. -/
def collapseChainValues (chainValues : List Expr) : List Expr × List Nat :=
  (List.range chainValues.length).foldl collapseStep (chainValues, [])

/-- `value.items()` call wrapped around a chain value. -/
def itemsCall (val : Expr) : Expr :=
  .call (.attrib val "items" .load) [] []

/-- The `dict(itertools.chain(*chain_args))` value node of the multi-value
branch, whose chain arguments are built from the (post-mutation)
`chain_values` store. -/
def chainValueNode (store : List Expr) : Expr :=
  .call (.name "dict" .load)
    [.call (.attrib (.name "itertools" .load) "chain" .load) (store.map itemsCall) []]
    []

/-- `UnpackingGeneralizationsFixer.expand_starstararg_g12n`. -/
def expand_starstararg_g12n (node : Expr) (eff : Effects) :
    Except String (Expr × Effects) := do
  let chainValues ←
    match node with
    | .dict items => .ok (dictChainValues items)
    | .call _ _ kws => .ok (callChainValues kws)
    | _ => .error "TypeError: Unexpected node type"
  let store := (collapseChainValues chainValues).1
  let collapsed := (collapseChainValues chainValues).2.map fun j => store.getD j (.name "" .load)
  match collapsed with
  | [] => .error "AssertionError: len(collapsed_chain_values) > 0"
  | [collapsedChainValue] =>
    -- no need for itertools.chain with a single value left after collapse
    match node with
    | .dict _ => .ok (collapsedChainValue, eff)
    | .call f args _ =>
      match f with
      | .name "dict" _ => .ok (collapsedChainValue, eff)
      | _ => .ok (.call f args [(none, collapsedChainValue)], eff)
    | _ => .error "TypeError: Unexpected node type"
  | _ :: _ :: _ =>
    match node with
    | .call f args _ =>
      let eff := eff.addImport ⟨"itertools", none⟩
      .ok (.call f args [(none, chainValueNode store)], eff)
    | _ => .error "AssertionError: isinstance(node, ast.Call)"

/-! ## visit_expr (fixers.py 779-785) -/

/-- `UnpackingGeneralizationsFixer.visit_expr`: both guards test the
original node; the second expansion applies to the result of the first. -/
def visit_expr (node : Expr) (eff : Effects) : Except String (Expr × Effects) := do
  let (newNode, eff) ←
    if isArgUnpackNode node && has_stararg_g12n node then do
      let n ← expand_stararg_g12n node
      pure (n, eff)
    else pure (node, eff)
  if isKwArgUnpackNode node && has_starstararg_g12n node then
    expand_starstararg_g12n newNode eff
  else pure (newNode, eff)

/-! ## The fixer's dedicated walk (fixers.py 787-897) -/

/-- The single-dict-splat simplification test of `walk_node`
(fixers.py 846-857): a `dict(..)` call with no positional argument and
exactly one `**` keyword whose operand is a dict literal or another
`dict(..)` call is replaced by that operand. -/
def singleDictSplatValue : Expr → Option Expr
  | .call f args kws =>
    if is_dict_call (.call f args kws) && args.isEmpty then
      match kws with
      | [(none, v)] => if is_dict_call v || isDictLiteral v then some v else none
      | _ => none
    else none
  | _ => none

/-- The phase of `walk_node` that runs after the child fields of an
expression node have been walked: `visit_expr`, then the dict-splat
simplification. -/
def postWalk (node : Expr) (eff : Effects) : Except String (Expr × Effects) := do
  let (newExprNode, eff) ← visit_expr node eff
  match singleDictSplatValue newExprNode with
  | some v => .ok (v, eff)
  | none => .ok (newExprNode, eff)

mutual

/-- `UnpackingGeneralizationsFixer.walk_node` on expressions: leaf kinds
are returned without descent and without `visit_expr`; every other node
first has its walkable child fields rewritten (in field order), then is
passed to `visit_expr` and the dict-splat simplification. `Dict` keys and
values are two parallel fields in the source and one item list here, so
key/value walks interleave instead of all keys walking first; the only
trace a walk leaves besides its result (the itertools import effect) is
insensitive to that order. -/
def walk_node : Expr → Effects → Except String (Expr × Effects)
  | .name id ctx, eff => .ok (.name id ctx, eff)
  | .num n, eff => .ok (.num n, eff)
  | .str s, eff => .ok (.str s, eff)
  | .starred v, eff => do
    let (v', eff) ← walk_node v eff
    postWalk (.starred v') eff
  | .list elts, eff => do
    let (elts', eff) ← walkExprList elts eff
    postWalk (.list elts') eff
  | .set elts, eff => do
    let (elts', eff) ← walkExprList elts eff
    postWalk (.set elts') eff
  | .tuple elts, eff => do
    let (elts', eff) ← walkExprList elts eff
    postWalk (.tuple elts') eff
  | .dict items, eff => do
    let (items', eff) ← walkDictItems items eff
    postWalk (.dict items') eff
  | .call f args kws, eff => do
    let (f', eff) ← walk_node f eff
    let (args', eff) ← walkExprList args eff
    let (kws', eff) ← walkKeywords kws eff
    postWalk (.call f' args' kws') eff
  | .binop l op r, eff => do
    let (l', eff) ← walk_node l eff
    let (r', eff) ← walk_node r eff
    postWalk (.binop l' op r') eff
  | .attrib v a c, eff => do
    let (v', eff) ← walk_node v eff
    postWalk (.attrib v' a c) eff

/-- Walk of a list-of-expressions child field (`args`, `elts`). -/
def walkExprList : List Expr → Effects → Except String (List Expr × Effects)
  | [], eff => .ok ([], eff)
  | e :: rest, eff => do
    let (e', eff) ← walk_node e eff
    let (rest', eff) ← walkExprList rest eff
    .ok (e' :: rest', eff)

/-- Walk of `Dict` items (`None` keys of `**` spreads are not ast nodes
and stay put; key expressions are walked like any non-leaf child). -/
def walkDictItems : List (Option Expr × Expr) → Effects →
    Except String (List (Option Expr × Expr) × Effects)
  | [], eff => .ok ([], eff)
  | (k, v) :: rest, eff => do
    let (k', eff) ←
      match k with
      | none => pure ((none : Option Expr), eff)
      | some ke => do
        let (ke', eff) ← walk_node ke eff
        pure (some ke', eff)
    let (v', eff) ← walk_node v eff
    let (rest', eff) ← walkDictItems rest eff
    .ok ((k', v') :: rest', eff)

/-- Walk of `Call.keywords`: an `ast.keyword` node is walked as a
non-expression node, i.e. only its `value` child is rewritten. -/
def walkKeywords : List (Option String × Expr) → Effects →
    Except String (List (Option String × Expr) × Effects)
  | [], eff => .ok ([], eff)
  | (a, v) :: rest, eff => do
    let (v', eff) ← walk_node v eff
    let (rest', eff) ← walkKeywords rest eff
    .ok ((a, v') :: rest', eff)

end

/-- `UnpackingGeneralizationsFixer.walk_stmt` on the statement fragment:
an expression statement has its `value` field walked; an `ImportFrom`'s
alias children are walked as non-expression nodes and return unchanged. -/
def walk_stmt : Stmt → Effects → Except String (Stmt × Effects)
  | .exprStmt e, eff => do
    let (e', eff) ← walk_node e eff
    .ok (.exprStmt e', eff)
  | .importFrom m names, eff => .ok (.importFrom m names, eff)

/-- `UnpackingGeneralizationsFixer.walk_stmtlist`. -/
def walk_stmtlist : List Stmt → Effects → Except String (List Stmt × Effects)
  | [], eff => .ok ([], eff)
  | s :: rest, eff => do
    let (s', eff) ← walk_stmt s eff
    let (rest', eff) ← walk_stmtlist rest eff
    .ok (s' :: rest', eff)

/-- `UnpackingGeneralizationsFixer.__call__` on a module with a fresh
fixer instance (`FixerBase.__init__`: empty effect sets). -/
def runUnpackingFixer (tree : Module) : Except String (Module × Effects) :=
  walk_stmtlist tree emptyEffects

/-! ## Pass selection (transpile.py 84-127)

`iter_fuzzy_selected_classes` receives a name filter, a module object and
a capability base class. The module's discoverable classes are modelled
as an association list in `dir(module)` order (Python `dir` sorts
attribute names); `available_classes` keeps that order (dicts preserve
insertion order) keyed by normalized name. A failed dict lookup
(`KeyError` for an unknown filter token) and the `assert` on an empty
selection both yield `none`. -/

/-- The local `normalize_name`: lowercase, strip `_` and `-`, drop the
capability suffix (`"Fixer"`/`"Checker"`) when present. -/
def normalize_name (optionalSuffix : String) (name : String) : String :=
  let n := pyRemoveChar '-' (pyRemoveChar '_' (pyLower name))
  if pyEndsWith n (pyLower optionalSuffix) then pyDropRight n optionalSuffix.length else n

/-- Dict lookup in `available_classes` (normalized names are pairwise
distinct in both registries, so first-match lookup agrees with the dict). -/
def lookupAvailable (avail : List (String × α)) (n : String) : Option α :=
  match avail.find? (fun p => p.1 == n) with
  | some p => some p.2
  | none => none

/-- The final loop `for name in selected_names: yield available_classes[name]()`:
instantiate the selected classes in the order of `selected_names`; an
unknown name is a `KeyError`. -/
def instantiateSelected (avail : List (String × α)) : List String → Option (List α)
  | [] => some []
  | n :: rest =>
    match lookupAvailable avail n with
    | none => none
    | some x =>
      match instantiateSelected avail rest with
      | none => none
      | some xs => some (x :: xs)

/-- `transpile.iter_fuzzy_selected_classes` (the name filter is taken
already split on commas): strip and drop blank tokens; an empty filter
selects every available class in registry order, a non-empty filter is
normalized token by token and looked up. -/
def iter_fuzzy_selected_classes (names : List String) (available : List (String × α))
    (optionalSuffix : String) : Option (List α) :=
  let names := (names.map pyStrip).filter (fun s => !s.isEmpty)
  let avail := available.map (fun p => (normalize_name optionalSuffix p.1, p.2))
  let selectedNames :=
    if !names.isEmpty then names.map (normalize_name optionalSuffix)
    else avail.map (fun p => p.1)
  if selectedNames.isEmpty then none
  else instantiateSelected avail selectedNames

/-- Tokens naming the concrete fixer classes of `fixers.py`. -/
inductive FixerId
  | absoluteImportFuture
  | annotationsFuture
  | divisionFuture
  | fstringToStrFormat
  | generatorStopFuture
  | generatorsFuture
  | inlineKWOnlyArgs
  | itertoolsBuiltins
  | namedTupleClassToAssign
  | nestedScopesFuture
  | newStyleClasses
  | printFunctionFuture
  | rawInputToInput
  | removeAnnAssign
  | removeFunctionDefAnnotations
  | shortToLongFormSuper
  | unichrToChr
  | unicodeLiteralsFuture
  | unicodeToStr
  | unpackingGeneralizations
  | withStatementFuture
  | xrangeToRange
deriving DecidableEq, Repr

/-- The discoverable fixer classes of module `fixers` in `dir()` order
(ASCII-sorted attribute names), after dropping names ending in
`"FixerBase"` and non-subclasses — the insertion order of
`available_classes`. -/
def fixersModuleRegistry : List (String × FixerId) :=
  [("AbsoluteImportFutureFixer", .absoluteImportFuture),
   ("AnnotationsFutureFixer", .annotationsFuture),
   ("DivisionFutureFixer", .divisionFuture),
   ("FStringToStrFormatFixer", .fstringToStrFormat),
   ("GeneratorStopFutureFixer", .generatorStopFuture),
   ("GeneratorsFutureFixer", .generatorsFuture),
   ("InlineKWOnlyArgsFixer", .inlineKWOnlyArgs),
   ("ItertoolsBuiltinsFixer", .itertoolsBuiltins),
   ("NamedTupleClassToAssignFixer", .namedTupleClassToAssign),
   ("NestedScopesFutureFixer", .nestedScopesFuture),
   ("NewStyleClassesFixer", .newStyleClasses),
   ("PrintFunctionFutureFixer", .printFunctionFuture),
   ("RawInputToInputFixer", .rawInputToInput),
   ("RemoveAnnAssignFixer", .removeAnnAssign),
   ("RemoveFunctionDefAnnotationsFixer", .removeFunctionDefAnnotations),
   ("ShortToLongFormSuperFixer", .shortToLongFormSuper),
   ("UnichrToChrFixer", .unichrToChr),
   ("UnicodeLiteralsFutureFixer", .unicodeLiteralsFuture),
   ("UnicodeToStrFixer", .unicodeToStr),
   ("UnpackingGeneralizationsFixer", .unpackingGeneralizations),
   ("WithStatementFutureFixer", .withStatementFuture),
   ("XrangeToRangeFixer", .xrangeToRange)]


/-! ## ast.walk over the fragment (used by the checkers)

`ast.walk` is a breadth-first traversal: pop the front of a FIFO queue,
yield the node, append its children. Context and operator leaf children
are omitted from `pyChildren` — no checker inspects those kinds. -/

/-- The node universe `ast.walk` yields on the fragment: modules,
statements, expressions, `ast.alias` and `ast.keyword` nodes. -/
inductive PyNode
  | mod (body : Module)
  | stm (s : Stmt)
  | exp (e : Expr)
  | aliasNode (a : AliasDecl)
  | keywordNode (arg : Option String) (value : Expr)

/-- `ast.iter_child_nodes` on the fragment, in field order. -/
def pyChildren : PyNode → List PyNode
  | .mod body => body.map .stm
  | .stm (.exprStmt e) => [.exp e]
  | .stm (.importFrom _ names) => names.map .aliasNode
  | .aliasNode _ => []
  | .keywordNode _ v => [.exp v]
  | .exp e =>
    match e with
    | .name .. | .num _ | .str _ => []
    | .starred v => [.exp v]
    | .list elts | .set elts | .tuple elts => elts.map .exp
    | .dict items =>
      (items.filterMap (fun it => it.1)).map .exp ++ items.map (fun it => .exp it.2)
    | .call f args kws =>
      .exp f :: (args.map .exp ++ kws.map (fun kw => .keywordNode kw.1 kw.2))
    | .binop l _ r => [.exp l, .exp r]
    | .attrib v _ _ => [.exp v]

theorem sum_map_sizeOf_exp (l : List Expr) :
    ((l.map PyNode.exp).map sizeOf).sum + 1 ≤ sizeOf l := by
  induction l with
  | nil => simp
  | cons e rest ih => simp at *; omega

theorem sum_map_sizeOf_stm (l : List Stmt) :
    ((l.map PyNode.stm).map sizeOf).sum + 1 ≤ sizeOf l := by
  induction l with
  | nil => simp
  | cons s rest ih => simp at *; omega

theorem sum_map_sizeOf_alias (l : List AliasDecl) :
    ((l.map PyNode.aliasNode).map sizeOf).sum + 1 ≤ sizeOf l := by
  induction l with
  | nil => simp
  | cons a rest ih => simp at *; omega

theorem sum_map_sizeOf_keyword (l : List (Option String × Expr)) :
    ((l.map (fun kw => PyNode.keywordNode kw.1 kw.2)).map sizeOf).sum + 1 ≤ sizeOf l := by
  induction l with
  | nil => simp
  | cons kw rest ih =>
    obtain ⟨a, v⟩ := kw
    simp at *
    omega

theorem sum_map_sizeOf_dict_items (items : List (Option Expr × Expr)) :
    (((items.filterMap (fun it => it.1)).map PyNode.exp).map sizeOf).sum +
      ((items.map (fun it => PyNode.exp it.2)).map sizeOf).sum + 1 ≤ sizeOf items := by
  induction items with
  | nil => simp
  | cons it rest ih =>
    obtain ⟨k, v⟩ := it
    cases k with
    | none => simp at *; omega
    | some ke => simp at *; omega

/-- Every node strictly outweighs the queue extension its children cause:
the termination argument for the BFS queue. -/
theorem pyChildren_score (n : PyNode) : ((pyChildren n).map sizeOf).sum < sizeOf n := by
  match n with
  | .mod body =>
    have := sum_map_sizeOf_stm body
    simp [pyChildren]; simp at this; omega
  | .stm (.exprStmt e) => simp [pyChildren]; try omega
  | .stm (.importFrom m names) =>
    have := sum_map_sizeOf_alias names
    simp [pyChildren]; simp at this; omega
  | .aliasNode a => simp [pyChildren]
  | .keywordNode a v => cases a <;> (simp [pyChildren]; try omega)
  | .exp (.name id ctx) => simp [pyChildren]
  | .exp (.num v) => simp [pyChildren]
  | .exp (.str s) => simp [pyChildren]
  | .exp (.starred v) => simp [pyChildren]; try omega
  | .exp (.list elts) =>
    have := sum_map_sizeOf_exp elts
    simp [pyChildren]; simp at this; omega
  | .exp (.set elts) =>
    have := sum_map_sizeOf_exp elts
    simp [pyChildren]; simp at this; omega
  | .exp (.tuple elts) =>
    have := sum_map_sizeOf_exp elts
    simp [pyChildren]; simp at this; omega
  | .exp (.dict items) =>
    have := sum_map_sizeOf_dict_items items
    simp [pyChildren]; simp at this; omega
  | .exp (.call f args kws) =>
    have h1 := sum_map_sizeOf_exp args
    have h2 := sum_map_sizeOf_keyword kws
    simp [pyChildren]; simp at h1 h2; omega
  | .exp (.binop l op r) => cases op <;> (simp [pyChildren]; try omega)
  | .exp (.attrib v a c) => simp [pyChildren]; try omega

/-- `ast.walk`: breadth-first node enumeration via a FIFO queue. -/
def walkBFS : List PyNode → List PyNode
  | [] => []
  | n :: q => n :: walkBFS (q ++ pyChildren n)
termination_by q => (q.map sizeOf).sum
decreasing_by
  simp only [List.map_append, List.sum_append, List.map_cons, List.sum_cons]
  have := pyChildren_score n
  omega

/-- `ast.walk(tree)` for a module tree. -/
def ast_walk (tree : Module) : List PyNode := walkBFS [.mod tree]

/-! ## Checkers (checkers.py)

Each checker scans `ast.walk(tree)` and raises `common.CheckError` at the
first forbidden node; `none` means the tree passed. Quote characters
inside the CPython message texts are omitted here. -/

/-- `checkers.NoStarImports.__call__` at one walked node: an `ImportFrom`
with any `*` alias raises. -/
def noStarImportsNode : PyNode → Option String
  | .stm (.importFrom m names) =>
    if names.any (fun al => al.name == "*") then
      some ("Prohibited from " ++ (match m with | none => "None" | some s => s) ++ " import *.")
    else none
  | _ => none

/-- `checkers.NoStarImports`. -/
def NoStarImports (tree : Module) : Option String :=
  (ast_walk tree).findSome? noStarImportsNode

/-- `checkers.PROHIBITED_OPEN_ARGUMENTS`. -/
def PROHIBITED_OPEN_ARGUMENTS : List String :=
  ["encoding", "errors", "newline", "closefd", "opener"]

/-- The keyword loop of `NoOpenWithEncodingChecker.__call__`: raise on a
prohibited keyword name; skip keywords not named `mode`; a `mode` keyword
must be a `Str`, whose value replaces the tracked mode. -/
def openKeywordLoop : List (Option String × Expr) → String → Except String String
  | [], mode => .ok mode
  | (a, v) :: rest, mode =>
    if (match a with | some s => PROHIBITED_OPEN_ARGUMENTS.contains s | none => false) then
      .error ("Prohibited keyword argument " ++
        (match a with | some s => s | none => "None") ++ " to builtin.open.")
    else if a ≠ some "mode" then openKeywordLoop rest mode
    else
      match v with
      | .str s => openKeywordLoop rest s
      | _ => .error "Prohibited value for argument mode of builtin.open. Expected ast.Str node."

/-- `checkers.NoOpenWithEncodingChecker.__call__` at one walked node: a
call of the bare name `open` in Load context; the mode defaults to `r`,
is read from a `Str` second positional argument or a `mode` keyword, and
must contain a `b`. -/
def checkOpenNode : PyNode → Option String
  | .exp (.call (.name fid ctx) args kws) =>
    if fid == "open" && ctx == Ctx.load then
      let modeRes : Except String String :=
        if args.length ≥ 2 then
          match args.get? 1 with
          | some (.str s) => .ok s
          | _ => .error "Prohibited value for argument mode of builtin.open. Expected ast.Str node."
        else .ok "r"
      match modeRes with
      | .error e => some e
      | .ok mode =>
        if args.length > 3 then some "Prohibited positional arguments to builtin.open"
        else
          match openKeywordLoop kws mode with
          | .error e => some e
          | .ok mode =>
            if pyContainsChar mode 'b' then none
            else some ("Prohibited value " ++ mode ++ " for argument mode of builtin.open. " ++
              "Only binary modes are allowed, use io.open as an alternative.")
    else none
  | _ => none

/-- `checkers.NoOpenWithEncodingChecker`. -/
def NoOpenWithEncodingChecker (tree : Module) : Option String :=
  (ast_walk tree).findSome? checkOpenNode

/-- `NoOverriddenStdlibImportsChecker.prohibited_import_overrides`. -/
def prohibited_import_overrides : List String := ["itertools", "six", "builtins"]

/-- `NoOverriddenStdlibImportsChecker.__call__` at one walked node:
`name_in_scope` is a Store-context name or an import alias with an
`asname` (function/class definitions and `arg` nodes lie outside the
statement fragment and contribute no names there). -/
def stdlibOverrideNode : PyNode → Option String
  | .exp (.name id .store) =>
    if id ∈ prohibited_import_overrides then
      some ("Prohibited override of import " ++ id)
    else none
  | .aliasNode a =>
    match a.asname with
    | some asn =>
      if asn ∈ prohibited_import_overrides then
        some ("Prohibited override of import " ++ asn)
      else none
    | none => none
  | _ => none

/-- `checkers.NoOverriddenStdlibImportsChecker`. -/
def NoOverriddenStdlibImportsChecker (tree : Module) : Option String :=
  (ast_walk tree).findSome? stdlibOverrideNode

/-- `common.BUILTIN_NAMES`. Modelled from the spec: `common.py` is not
among the source files; the spec describes a fixed "do not shadow
builtins" set containing the builtin callables that fixer-generated
declarations rely on. -/
def BUILTIN_NAMES : List String :=
  ["open", "list", "dict", "set", "tuple", "range", "str", "bytes", "int",
   "chr", "input", "map", "zip", "filter", "super", "object"]

/-- `NoOverriddenBuiltinsChecker.__call__` at one walked node: like the
stdlib-import checker, but an alias without `asname` contributes its
plain name. -/
def builtinsOverrideNode : PyNode → Option String
  | .exp (.name id .store) =>
    if id ∈ BUILTIN_NAMES then some ("Prohibited override of builtin " ++ id) else none
  | .aliasNode a =>
    let nm := match a.asname with | none => a.name | some asn => asn
    if nm ∈ BUILTIN_NAMES then some ("Prohibited override of builtin " ++ nm) else none
  | _ => none

/-- `checkers.NoOverriddenBuiltinsChecker`. -/
def NoOverriddenBuiltinsChecker (tree : Module) : Option String :=
  (ast_walk tree).findSome? builtinsOverrideNode

/-- `checkers.NoAsyncAwait`: raises on `AsyncFor` / `AsyncWith` /
`AsyncFunctionDef` / `Await` nodes; the fragment contains none of those
kinds, so the isinstance test is false at every fragment node. -/
def isAsyncAwaitNode : PyNode → Bool := fun _ => false

/-- `checkers.NoAsyncAwait`. -/
def NoAsyncAwait (tree : Module) : Option String :=
  (ast_walk tree).findSome? fun n =>
    if isAsyncAwaitNode n then some "Prohibited use of async and await" else none

/-- `checkers.NoThreeOnlyImports`: its body is `pass`. -/
def NoThreeOnlyImports (_tree : Module) : Option String := none

/-! ## The pipeline driver (transpile.py 130-145)

`transpile_module` parses, runs every selected checker over the tree,
then folds the selected fixers over it, then renders. Parsing, header
handling and rendering are external collaborators; the tree phase is
modelled here over abstract checker and fixer procedures. A fixer
returning `None` raises `Exception: Error running fixer ...`. -/

/-- A checker: read-only, `some message` is a raised `CheckError`. -/
abbrev Checker := Module → Option String

/-- A fixer entry point as the driver sees it (`CheckerOrFixer`
protocol): it may return `None`, which the driver treats as an error. -/
abbrev FixerProc := Module → Option Module

/-- The checker loop of `transpile_module`: each checker runs over the
same tree; the first raised `CheckError` propagates. -/
def runCheckers : List Checker → Module → Option String
  | [], _ => none
  | c :: cs, tree =>
    match c tree with
    | some e => some e
    | none => runCheckers cs tree

/-- The fixer loop of `transpile_module`: fold the tree through the
fixers, failing when a fixer produces no module. -/
def runFixers : List FixerProc → Module → Except String Module
  | [], tree => .ok tree
  | f :: fs, tree =>
    match f tree with
    | none => .error "Error running fixer"
    | some tree' => runFixers fs tree'

/-- The tree phase of `transpile_module`: all selected checkers run
before any fixer touches the tree, and a `CheckError` aborts the run. -/
def transpilePipeline (chks : List Checker) (fxs : List FixerProc) (tree : Module) :
    Except String Module :=
  match runCheckers chks tree with
  | some e => .error e
  | none => runFixers fxs tree

/-- The checkers of module `checkers` under the default empty selector,
in registry (`dir()`) order. -/
def checkersInRegistryOrder : List Checker :=
  [NoAsyncAwait, NoOpenWithEncodingChecker, NoOverriddenBuiltinsChecker,
   NoOverriddenStdlibImportsChecker, NoStarImports, NoThreeOnlyImports]

/-! ## Fully-collapsed trees

The domain on which the unpacking fixer is a no-op: no node carries an
interleaved `*` spread, an interleaved `**` spread, or the
single-dict-splat pattern. -/

/-- A single node gives `visit_expr` and the dict-splat simplification
nothing to do. -/
def nodeUnexpandable (e : Expr) : Bool :=
  !(isArgUnpackNode e && has_stararg_g12n e) &&
  (!(isKwArgUnpackNode e && has_starstararg_g12n e) &&
    (singleDictSplatValue e).isNone)

mutual

/-- Every node of the expression is unexpandable. -/
def exprCollapsed : Expr → Bool
  | .name id ctx => nodeUnexpandable (.name id ctx)
  | .num n => nodeUnexpandable (.num n)
  | .str s => nodeUnexpandable (.str s)
  | .starred v => nodeUnexpandable (.starred v) && exprCollapsed v
  | .list elts => nodeUnexpandable (.list elts) && exprListCollapsed elts
  | .set elts => nodeUnexpandable (.set elts) && exprListCollapsed elts
  | .tuple elts => nodeUnexpandable (.tuple elts) && exprListCollapsed elts
  | .dict items => nodeUnexpandable (.dict items) && dictItemsCollapsed items
  | .call f args kws =>
    nodeUnexpandable (.call f args kws) &&
      (exprCollapsed f && (exprListCollapsed args && keywordsCollapsed kws))
  | .binop l op r => nodeUnexpandable (.binop l op r) && (exprCollapsed l && exprCollapsed r)
  | .attrib v a c => nodeUnexpandable (.attrib v a c) && exprCollapsed v

def exprListCollapsed : List Expr → Bool
  | [] => true
  | e :: rest => exprCollapsed e && exprListCollapsed rest

def dictItemsCollapsed : List (Option Expr × Expr) → Bool
  | [] => true
  | (k, v) :: rest =>
    (match k with
     | none => true
     | some ke => exprCollapsed ke) &&
      (exprCollapsed v && dictItemsCollapsed rest)

def keywordsCollapsed : List (Option String × Expr) → Bool
  | [] => true
  | (_, v) :: rest => exprCollapsed v && keywordsCollapsed rest

end

/-- Statement-level collapsedness. -/
def stmtCollapsed : Stmt → Bool
  | .exprStmt e => exprCollapsed e
  | .importFrom _ _ => true

/-- Module-level collapsedness. -/
def moduleCollapsed : Module → Bool
  | [] => true
  | s :: rest => stmtCollapsed s && moduleCollapsed rest

/-! ## Concrete trees used by the claim theorems -/

/-- `{**a, **b, "x": 1}`: a mapping literal with two opaque spreads and a
trailing explicit pair. -/
def c1_failing_input : Expr :=
  .dict [(none, .name "a" .load), (none, .name "b" .load), (some (.str "x"), .num 1)]

/-- `{**{"a": 1}, **{"b": 2}}`. -/
def c1_literal_input : Expr :=
  .dict [(none, .dict [(some (.str "a"), .num 1)]), (none, .dict [(some (.str "b"), .num 2)])]

/-- `f(**a, x=1, y=2)`. -/
def c2_input : Expr :=
  .call (.name "f" .load) []
    [(none, .name "a" .load), (some "x", .num 1), (some "y", .num 2)]

/-- What the code produces for `f(**a, x=1, y=2)`: the chain arguments
come from the post-mutation `chain_values` store, so the merged literal
`{"x": 1, "y": 2}` appears at the position of `{"x": 1}` and the
absorbed `{"y": 2}` still appears after it. -/
def c2_code_output : Expr :=
  .call (.name "f" .load) []
    [(none, chainValueNode
      [.name "a" .load,
       .dict [(some (.str "x"), .num 1), (some (.str "y"), .num 2)],
       .dict [(some (.str "y"), .num 2)]])]

/-- The output the claim's words prescribe for `f(**a, x=1, y=2)`: a
single keyword spread chaining exactly the remaining *collapsed* chain
values `a` and `{"x": 1, "y": 2}`. (Spec-side definition, built from the
claim's sentence, for comparison against the source-side computation.) -/
def c2_spec_output : Expr :=
  .call (.name "f" .load) []
    [(none, chainValueNode
      [.name "a" .load,
       .dict [(some (.str "x"), .num 1), (some (.str "y"), .num 2)]])]

/-- `{**{**{"a": 1}}, "y": 2}`: after one fixer run this still contains an
interleaved `**` spread. -/
def c6_input : Module :=
  [.exprStmt (.dict
    [(none, .dict [(none, .dict [(some (.str "a"), .num 1)])]),
     (some (.str "y"), .num 2)])]

/-- First fixer run of `c6_input`: `{**{"a": 1}, "y": 2}`. -/
def c6_once : Module :=
  [.exprStmt (.dict
    [(none, .dict [(some (.str "a"), .num 1)]),
     (some (.str "y"), .num 2)])]

/-- Second fixer run: `{"a": 1, "y": 2}` — the tree changed again. -/
def c6_twice : Module :=
  [.exprStmt (.dict
    [(some (.str "a"), .num 1),
     (some (.str "y"), .num 2)])]

/-- A module with two independent violations: a star import (first in the
tree) and a text-mode `open` call (second). -/
def c7_tree : Module :=
  [.importFrom (some "os") [⟨"*", none⟩],
   .exprStmt (.call (.name "open" .load) [.str "f.txt"] [])]

/-! ## Helper lemmas for the claim theorems -/

/-- An argument list whose only spread is its final element never triggers
the `_has_stararg_g12n` loop. -/
theorem starargLoop_no_tail_interleave :
    ∀ (pre : List Expr) (v : Expr), (∀ e ∈ pre, isStarred e = false) →
      starargLoop (pre ++ [.starred v]) false = false := by
  intro pre
  induction pre with
  | nil => intro v _; rfl
  | cons a rest ih =>
    intro v h
    have ha : isStarred a = false := h a (by simp)
    simp only [List.cons_append, starargLoop, if_false, Bool.false_eq_true, ha]
    exact ih v (fun e he => h e (by simp [he]))

/-- A keyword list with no `**` spread never triggers the
`_has_starstarargs_g12n` loop. -/
theorem kwstarLoopKeywords_no_spread :
    ∀ (kws : List (Option String × Expr)), (∀ kw ∈ kws, (kw.1 : Option String) ≠ none) →
      kwstarLoopKeywords kws false = false := by
  intro kws
  induction kws with
  | nil => intro _; rfl
  | cons kw rest ih =>
    intro h
    have ha : kw.1.isNone = false := by
      cases hk : kw.1 with
      | none => exact absurd hk (h kw (by simp))
      | some s => rfl
    simp only [kwstarLoopKeywords, if_false, Bool.false_eq_true, ha]
    exact ih (fun e he => h e (by simp [he]))

/-- The open-mode keyword loop either raises or leaves the tracked mode
unchanged when no keyword is named `mode`. -/
theorem openKeywordLoop_no_mode :
    ∀ (kws : List (Option String × Expr)) (mode : String),
      (∀ kw ∈ kws, (kw.1 : Option String) ≠ some "mode") →
      openKeywordLoop kws mode = .ok mode ∨ ∃ e, openKeywordLoop kws mode = .error e := by
  intro kws
  induction kws with
  | nil => intro mode _; exact Or.inl rfl
  | cons kw rest ih =>
    intro mode h
    obtain ⟨a, v⟩ := kw
    have hne : a ≠ some "mode" := h (a, v) (by simp)
    have hrest : ∀ kw ∈ rest, (kw.1 : Option String) ≠ some "mode" :=
      fun kw hkw => h kw (by simp [hkw])
    cases a with
    | none =>
      have hstep : openKeywordLoop ((none, v) :: rest) mode = openKeywordLoop rest mode := by
        simp [openKeywordLoop]
      rw [hstep]
      exact ih mode hrest
    | some s =>
      have hs : s ≠ "mode" := by
        intro hcontra
        exact hne (by rw [hcontra])
      by_cases hp : PROHIBITED_OPEN_ARGUMENTS.contains s = true
      · exact Or.inr ⟨"Prohibited keyword argument " ++ s ++ " to builtin.open.",
          by simp only [openKeywordLoop, hp, if_true]⟩
      · have hmem : s ∉ PROHIBITED_OPEN_ARGUMENTS := by
          simpa using hp
        have hstep : openKeywordLoop ((some s, v) :: rest) mode = openKeywordLoop rest mode := by
          simp [openKeywordLoop, hmem, hs]
        rw [hstep]
        exact ih mode hrest

/-- An `open` call in Load context with at most one positional argument
and no `mode` keyword always fails the per-node open-mode check. -/
theorem checkOpenNode_isSome (args : List Expr) (kws : List (Option String × Expr))
    (hargs : args.length ≤ 1) (hkws : ∀ kw ∈ kws, (kw.1 : Option String) ≠ some "mode") :
    (checkOpenNode (.exp (.call (.name "open" .load) args kws))).isSome = true := by
  have h2 : ¬ (args.length ≥ 2) := by omega
  have h3 : ¬ (args.length > 3) := by omega
  rcases openKeywordLoop_no_mode kws "r" hkws with hok | ⟨e, herr⟩
  · simp [checkOpenNode, h2, h3, hok, pyContainsChar]
  · simp [checkOpenNode, h2, h3, herr]

/-- A scan with a constant-`none` test finds nothing. -/
theorem findSome_const_none {α β : Type} :
    ∀ l : List α, l.findSome? (fun _ => (none : Option β)) = none := by
  intro l
  induction l with
  | nil => rfl
  | cons a rest ih => simp [List.findSome?, ih]

/-- Instantiation distributes over concatenation of the selected names. -/
theorem instantiateSelected_append {α : Type} (avail : List (String × α)) :
    ∀ l1 l2 : List String, instantiateSelected avail (l1 ++ l2) =
      match instantiateSelected avail l1, instantiateSelected avail l2 with
      | some xs, some ys => some (xs ++ ys)
      | _, _ => none := by
  intro l1
  induction l1 with
  | nil =>
    intro l2
    simp only [List.nil_append, instantiateSelected]
    cases instantiateSelected avail l2 <;> rfl
  | cons n rest ih =>
    intro l2
    simp only [List.cons_append, instantiateSelected, List.append_eq]
    cases lookupAvailable avail n with
    | none => rfl
    | some x =>
      rw [ih l2]
      cases instantiateSelected avail rest <;> cases instantiateSelected avail l2 <;> rfl

/-- Instantiating a reversed selection yields the reversed instances. -/
theorem instantiateSelected_reverse {α : Type} (avail : List (String × α)) :
    ∀ l : List String,
      instantiateSelected avail l.reverse = (instantiateSelected avail l).map List.reverse := by
  intro l
  induction l with
  | nil => rfl
  | cons n rest ih =>
    simp only [List.reverse_cons]
    rw [instantiateSelected_append, ih]
    simp only [instantiateSelected]
    cases hx : lookupAvailable avail n <;> cases hr : instantiateSelected avail rest <;>
      simp [List.reverse_cons]

/-- A blank selector token selects every available class in registry
order (`dir()` order of the fixers module). -/
theorem iter_fuzzy_empty_selector_registry_order :
    iter_fuzzy_selected_classes [""] fixersModuleRegistry "Fixer" =
      some (fixersModuleRegistry.map Prod.snd) := rfl

/-- On an unexpandable node, `visit_expr` and the dict-splat
simplification return the node unchanged. -/
theorem postWalk_unexpandable (e : Expr) (eff : Effects) (h : nodeUnexpandable e = true) :
    postWalk e eff = .ok (e, eff) := by
  simp only [nodeUnexpandable, Bool.and_eq_true, Bool.not_eq_true'] at h
  obtain ⟨h1, h2, h3⟩ := h
  have h3' : singleDictSplatValue e = none := Option.isNone_iff_eq_none.mp h3
  simp [postWalk, visit_expr, h1, h2, h3', Bind.bind, Except.bind, Pure.pure, Except.pure]

/-- Main induction (on node size) for the no-op property: on
fully-collapsed expressions, the fixer walk returns its input unchanged
and leaves the effect state untouched. -/
theorem walk_collapsed_bundle :
    ∀ n : Nat,
      (∀ e : Expr, sizeOf e ≤ n → exprCollapsed e = true →
        ∀ eff, walk_node e eff = .ok (e, eff)) ∧
      (∀ l : List Expr, sizeOf l ≤ n → exprListCollapsed l = true →
        ∀ eff, walkExprList l eff = .ok (l, eff)) ∧
      (∀ items : List (Option Expr × Expr), sizeOf items ≤ n → dictItemsCollapsed items = true →
        ∀ eff, walkDictItems items eff = .ok (items, eff)) ∧
      (∀ kws : List (Option String × Expr), sizeOf kws ≤ n → keywordsCollapsed kws = true →
        ∀ eff, walkKeywords kws eff = .ok (kws, eff)) := by
  intro n
  induction n using Nat.strong_induction_on with
  | _ n ih =>
    refine ⟨?_, ?_, ?_, ?_⟩
    · intro e hsz hcol eff
      match e with
      | .name id ctx => rfl
      | .num v => rfl
      | .str s => rfl
      | .starred v =>
        simp only [exprCollapsed, Bool.and_eq_true] at hcol
        have hlt : sizeOf v < n := by
          have : sizeOf v < sizeOf (Expr.starred v) := by simp
          omega
        have hv := (ih (sizeOf v) hlt).1 v (le_refl _) hcol.2 eff
        simp [walk_node, hv, postWalk_unexpandable _ _ hcol.1,
          Bind.bind, Except.bind]
      | .list elts =>
        simp only [exprCollapsed, Bool.and_eq_true] at hcol
        have hlt : sizeOf elts < n := by
          have : sizeOf elts < sizeOf (Expr.list elts) := by simp
          omega
        have hv := (ih (sizeOf elts) hlt).2.1 elts (le_refl _) hcol.2 eff
        simp [walk_node, hv, postWalk_unexpandable _ _ hcol.1,
          Bind.bind, Except.bind]
      | .set elts =>
        simp only [exprCollapsed, Bool.and_eq_true] at hcol
        have hlt : sizeOf elts < n := by
          have : sizeOf elts < sizeOf (Expr.set elts) := by simp
          omega
        have hv := (ih (sizeOf elts) hlt).2.1 elts (le_refl _) hcol.2 eff
        simp [walk_node, hv, postWalk_unexpandable _ _ hcol.1,
          Bind.bind, Except.bind]
      | .tuple elts =>
        simp only [exprCollapsed, Bool.and_eq_true] at hcol
        have hlt : sizeOf elts < n := by
          have : sizeOf elts < sizeOf (Expr.tuple elts) := by simp
          omega
        have hv := (ih (sizeOf elts) hlt).2.1 elts (le_refl _) hcol.2 eff
        simp [walk_node, hv, postWalk_unexpandable _ _ hcol.1,
          Bind.bind, Except.bind]
      | .dict items =>
        simp only [exprCollapsed, Bool.and_eq_true] at hcol
        have hlt : sizeOf items < n := by
          have : sizeOf items < sizeOf (Expr.dict items) := by simp
          omega
        have hv := (ih (sizeOf items) hlt).2.2.1 items (le_refl _) hcol.2 eff
        simp [walk_node, hv, postWalk_unexpandable _ _ hcol.1,
          Bind.bind, Except.bind]
      | .call f args kws =>
        simp only [exprCollapsed, Bool.and_eq_true] at hcol
        obtain ⟨hnode, hf, hargs, hkws⟩ := hcol
        have hszf : sizeOf f < n := by
          have : sizeOf f < sizeOf (Expr.call f args kws) := by simp; omega
          omega
        have hsza : sizeOf args < n := by
          have : sizeOf args < sizeOf (Expr.call f args kws) := by simp; omega
          omega
        have hszk : sizeOf kws < n := by
          have : sizeOf kws < sizeOf (Expr.call f args kws) := by simp
          omega
        have h1 := (ih (sizeOf f) hszf).1 f (le_refl _) hf eff
        have h2 := (ih (sizeOf args) hsza).2.1 args (le_refl _) hargs eff
        have h3 := (ih (sizeOf kws) hszk).2.2.2 kws (le_refl _) hkws eff
        simp [walk_node, h1, h2, h3, postWalk_unexpandable _ _ hnode,
          Bind.bind, Except.bind]
      | .binop l op r =>
        simp only [exprCollapsed, Bool.and_eq_true] at hcol
        obtain ⟨hnode, hl, hr⟩ := hcol
        have hszl : sizeOf l < n := by
          have : sizeOf l < sizeOf (Expr.binop l op r) := by simp; omega
          omega
        have hszr : sizeOf r < n := by
          have : sizeOf r < sizeOf (Expr.binop l op r) := by simp
          omega
        have h1 := (ih (sizeOf l) hszl).1 l (le_refl _) hl eff
        have h2 := (ih (sizeOf r) hszr).1 r (le_refl _) hr eff
        simp [walk_node, h1, h2, postWalk_unexpandable _ _ hnode,
          Bind.bind, Except.bind]
      | .attrib v a c =>
        simp only [exprCollapsed, Bool.and_eq_true] at hcol
        have hlt : sizeOf v < n := by
          have : sizeOf v < sizeOf (Expr.attrib v a c) := by simp; omega
          omega
        have hv := (ih (sizeOf v) hlt).1 v (le_refl _) hcol.2 eff
        simp [walk_node, hv, postWalk_unexpandable _ _ hcol.1,
          Bind.bind, Except.bind]
    · intro l hsz hcol eff
      match l with
      | [] => rfl
      | e :: rest =>
        simp only [exprListCollapsed, Bool.and_eq_true] at hcol
        have hsze : sizeOf e < n := by
          have : sizeOf e < sizeOf (e :: rest) := by simp; omega
          omega
        have hszr : sizeOf rest < n := by
          have : sizeOf rest < sizeOf (e :: rest) := by simp
          omega
        have h1 := (ih (sizeOf e) hsze).1 e (le_refl _) hcol.1 eff
        have h2 := (ih (sizeOf rest) hszr).2.1 rest (le_refl _) hcol.2 eff
        simp [walkExprList, h1, h2, Bind.bind, Except.bind]
    · intro items hsz hcol eff
      cases items with
      | nil => rfl
      | cons it rest =>
        obtain ⟨k, v⟩ := it
        have hszv : sizeOf v < n := by
          have : sizeOf v < sizeOf ((k, v) :: rest) := by simp; omega
          omega
        have hszr : sizeOf rest < n := by
          have : sizeOf rest < sizeOf ((k, v) :: rest) := by simp
          omega
        cases k with
        | none =>
          simp only [dictItemsCollapsed, Bool.and_eq_true, Bool.true_and] at hcol
          have h2 := (ih (sizeOf v) hszv).1 v (le_refl _) hcol.1 eff
          have h3 := (ih (sizeOf rest) hszr).2.2.1 rest (le_refl _) hcol.2
          simp [walkDictItems, h2, h3, Bind.bind, Except.bind, Pure.pure, Except.pure]
        | some ke =>
          simp only [dictItemsCollapsed, Bool.and_eq_true] at hcol
          obtain ⟨hk, hv, hrest⟩ := hcol
          have hszk : sizeOf ke < n := by
            have : sizeOf ke < sizeOf ((some ke, v) :: rest) := by simp; omega
            omega
          have h1 := (ih (sizeOf ke) hszk).1 ke (le_refl _) hk eff
          have h2 := (ih (sizeOf v) hszv).1 v (le_refl _) hv
          have h3 := (ih (sizeOf rest) hszr).2.2.1 rest (le_refl _) hrest
          simp [walkDictItems, h1, h2, h3, Bind.bind, Except.bind, Pure.pure, Except.pure]
    · intro kws hsz hcol eff
      match kws with
      | [] => rfl
      | (a, v) :: rest =>
        simp only [keywordsCollapsed, Bool.and_eq_true] at hcol
        have hszv : sizeOf v < n := by
          have : sizeOf v < sizeOf ((a, v) :: rest) := by simp; omega
          omega
        have hszr : sizeOf rest < n := by
          have : sizeOf rest < sizeOf ((a, v) :: rest) := by simp
          omega
        have h1 := (ih (sizeOf v) hszv).1 v (le_refl _) hcol.1 eff
        have h2 := (ih (sizeOf rest) hszr).2.2.2 rest (le_refl _) hcol.2 eff
        simp [walkKeywords, h1, h2, Bind.bind, Except.bind]

/-- Statement-level no-op on collapsed statements. -/
theorem walk_stmt_collapsed (s : Stmt) (h : stmtCollapsed s = true) (eff : Effects) :
    walk_stmt s eff = .ok (s, eff) := by
  cases s with
  | exprStmt e =>
    have he := (walk_collapsed_bundle (sizeOf e)).1 e (le_refl _) h eff
    simp [walk_stmt, he, Bind.bind, Except.bind]
  | importFrom m names => rfl

/-- Module-level no-op on collapsed modules. -/
theorem walk_stmtlist_collapsed :
    ∀ (m : Module), moduleCollapsed m = true → ∀ eff, walk_stmtlist m eff = .ok (m, eff) := by
  intro m
  induction m with
  | nil => intro _ eff; rfl
  | cons s rest ih =>
    intro h eff
    simp only [moduleCollapsed, Bool.and_eq_true] at h
    simp [walk_stmtlist, walk_stmt_collapsed s h.1, ih h.2, Bind.bind, Except.bind]

/-! ## The claims -/

/-- C1: claim evaluated at both of its inputs. For `{**a, **b, "x": 1}`
three chain values remain after collapsing, and the multi-value branch of
`expand_starstararg_g12n` asserts `isinstance(node, ast.Call)` — an
`ast.Dict` node reaches it, so the fixer raises `AssertionError` instead
of producing the chained single-spread mapping the claim describes. For
`{**{"a": 1}, **{"b": 2}}` the collapse produces the single literal
`{"a": 1, "b": 2}` with no import recorded, exactly as claimed. -/
theorem claim_C1_eval :
    visit_expr c1_failing_input emptyEffects =
      .error "AssertionError: isinstance(node, ast.Call)" ∧
    visit_expr c1_literal_input emptyEffects =
      .ok (.dict [(some (.str "a"), .num 1), (some (.str "b"), .num 2)], emptyEffects) :=
  ⟨rfl, rfl⟩

/-- C2 counterexample: on `f(**a, x=1, y=2)` more than one chain value
remains after collapsing, but the code builds the chain arguments from
the post-mutation `chain_values` (three `.items()` arguments, the
absorbed `{"y": 2}` chained again after the merged `{"x":1,"y":2}`),
not from the two remaining collapsed chain values the claim names. -/
theorem claim_C2_counterexample :
    expand_starstararg_g12n c2_input emptyEffects =
      .ok (c2_code_output, ⟨[⟨"itertools", none⟩], []⟩) ∧
    expand_starstararg_g12n c2_input emptyEffects ≠
      .ok (c2_spec_output, ⟨[⟨"itertools", none⟩], []⟩) := by
  constructor
  · rfl
  · intro h
    rw [show expand_starstararg_g12n c2_input emptyEffects =
      .ok (c2_code_output, ⟨[⟨"itertools", none⟩], []⟩) from rfl] at h
    simp [c2_code_output, c2_spec_output, chainValueNode, itemsCall] at h

/-- C2 amended: for every Call with interleaved keyword spreads for which
more than one chain value remains after collapsing adjacent
mapping-literal chain values, the normalizer attaches a single
keyword-spread argument whose value chains the post-collapse
`chain_values` store — one `.items()` argument per original chain value,
with merged literals reflected in place and the absorbed literals still
present — and records the itertools import as a required side effect. -/
theorem claim_C2_amended (f : Expr) (args : List Expr) (kws : List (Option String × Expr))
    (eff : Effects)
    (h : 2 ≤ (collapseChainValues (callChainValues kws)).2.length) :
    expand_starstararg_g12n (.call f args kws) eff =
      .ok (.call f args [(none, chainValueNode (collapseChainValues (callChainValues kws)).1)],
        eff.addImport ⟨"itertools", none⟩) := by
  rcases hl : (collapseChainValues (callChainValues kws)).2 with _ | ⟨i, tl⟩
  · rw [hl] at h; simp at h
  rcases tl with _ | ⟨j, rest⟩
  · rw [hl] at h; simp at h
  simp only [expand_starstararg_g12n, Bind.bind, Except.bind, hl, List.map_cons]

/-- C2 amended, witnessed at `f(**a, x=1, y=2)`. -/
theorem claim_C2_amended_witness :
    expand_starstararg_g12n c2_input emptyEffects =
      .ok (.call (.name "f" .load) []
        [(none, chainValueNode
          (collapseChainValues (callChainValues
            [(none, .name "a" .load), (some "x", .num 1), (some "y", .num 2)])).1)],
        emptyEffects.addImport ⟨"itertools", none⟩) :=
  claim_C2_amended (.name "f" .load) []
    [(none, .name "a" .load), (some "x", .num 1), (some "y", .num 2)] emptyEffects (by decide)

/-- C3: for any bare names `f`, `a`, `z`, the normalizer rewrites
`f(*a, *[1, 2], z)` to a call whose argument list is the single spread
`*(list(a) + [1, 2, z])` — the binary-`+` concatenation of the
materialized `a` with the literal list `[1, 2, z]` — and no other
positional argument. -/
theorem claim_C3_ok (f a z : String) (eff : Effects) :
    visit_expr
      (.call (.name f .load)
        [.starred (.name a .load), .starred (.list [.num 1, .num 2]), .name z .load] [])
      eff =
    .ok (.call (.name f .load)
      [.starred (.binop (.call (.name "list" .load) [.name a .load] []) .add
        (.list [.num 1, .num 2, .name z .load]))] [],
      eff) := rfl

/-- C4 counterexample: a non-empty name filter is instantiated and run in
filter order, not registry order. The same two fixers listed in opposite
orders are selected in opposite orders, while registry (`dir()`) order
would put `UnicodeToStrFixer` before `XrangeToRangeFixer` in both runs. -/
theorem claim_C4_counterexample :
    iter_fuzzy_selected_classes ["xrangetorange", "unicodetostr"] fixersModuleRegistry "Fixer" =
      some [.xrangeToRange, .unicodeToStr] ∧
    iter_fuzzy_selected_classes ["unicodetostr", "xrangetorange"] fixersModuleRegistry "Fixer" =
      some [.unicodeToStr, .xrangeToRange] ∧
    ([FixerId.xrangeToRange, .unicodeToStr] : List FixerId) ≠
      [FixerId.unicodeToStr, .xrangeToRange] := by
  refine ⟨rfl, rfl, by decide⟩

/-- C4 amended: for every non-empty name filter, the selected passes are
instantiated and executed in the order the names appear in the filter:
reversing the filter reverses the selection, so listing names in a
different order does change the order in which passes run. -/
theorem claim_C4_amended {α : Type} (names : List String) (available : List (String × α))
    (suffix : String)
    (h : ((names.map pyStrip).filter (fun s => !s.isEmpty)) ≠ []) :
    iter_fuzzy_selected_classes names.reverse available suffix =
      (iter_fuzzy_selected_classes names available suffix).map List.reverse := by
  have hrev : ((names.reverse.map pyStrip).filter (fun s => !s.isEmpty)) =
      ((names.map pyStrip).filter (fun s => !s.isEmpty)).reverse := by
    rw [List.map_reverse, List.filter_reverse]
  have h1 : ((names.map pyStrip).filter (fun s => !s.isEmpty)).isEmpty = false := by
    cases hc : (names.map pyStrip).filter (fun s => !s.isEmpty) with
    | nil => exact absurd hc h
    | cons a l => rfl
  have h2 : (((names.map pyStrip).filter (fun s => !s.isEmpty)).reverse).isEmpty = false := by
    cases hc : ((names.map pyStrip).filter (fun s => !s.isEmpty)).reverse with
    | nil =>
      exact absurd (List.reverse_eq_nil_iff.mp hc) h
    | cons a l => rfl
  simp only [iter_fuzzy_selected_classes, List.map_reverse, List.filter_reverse, hrev, h1, h2,
    Bool.not_false, if_true]
  have h3 : (((names.map pyStrip).filter (fun s => !s.isEmpty)).map
      (normalize_name suffix)).isEmpty = false := by
    cases hc : (names.map pyStrip).filter (fun s => !s.isEmpty) with
    | nil => exact absurd hc h
    | cons a l => rfl
  have h4 : ((((names.map pyStrip).filter (fun s => !s.isEmpty)).map
      (normalize_name suffix)).reverse).isEmpty = false := by
    cases hc : (((names.map pyStrip).filter (fun s => !s.isEmpty)).map
        (normalize_name suffix)).reverse with
    | nil =>
      have := List.reverse_eq_nil_iff.mp hc
      rw [List.map_eq_nil_iff] at this
      exact absurd this h
    | cons a l => rfl
  simp only [h3, h4, Bool.not_false, if_true, Bool.false_eq_true, if_false]
  exact instantiateSelected_reverse _ _

/-- C4 amended, witnessed on the two-fixer filter. -/
theorem claim_C4_amended_witness :
    iter_fuzzy_selected_classes (["xrangetorange", "unicodetostr"].reverse)
      fixersModuleRegistry "Fixer" =
    (iter_fuzzy_selected_classes ["xrangetorange", "unicodetostr"]
      fixersModuleRegistry "Fixer").map List.reverse :=
  claim_C4_amended ["xrangetorange", "unicodetostr"] fixersModuleRegistry "Fixer" (by decide)

/-- C5: for every fixer version window and all source/target versions,
`is_applicable_to(s, t)` holds iff `works_since ≤ s`, `works_until` is
unset or `s ≤ works_until`, and `apply_since ≤ t ≤ apply_until`, with all
boundaries inclusive; `works_since` defaults to `apply_since` when not
given; and in particular applicability fails whenever `s < works_since`. -/
theorem claim_C5_ok (a u : String) (ws wu : Option String) (s t : String) :
    ((VersionInfo.make a u ws wu).is_applicable_to s t = true ↔
      (pyLe (VersionInfo.make a u ws wu).works_since s = true ∧
       ((VersionInfo.make a u ws wu).works_until = none ∨
        ∃ w, (VersionInfo.make a u ws wu).works_until = some w ∧ pyLe s w = true) ∧
       pyLe (VersionInfo.make a u ws wu).apply_since t = true ∧
       pyLe t (VersionInfo.make a u ws wu).apply_until = true)) ∧
    (VersionInfo.make a u none wu).works_since = a ∧
    (pyLe (VersionInfo.make a u ws wu).works_since s = false →
      (VersionInfo.make a u ws wu).is_applicable_to s t = false) := by
  refine ⟨?_, rfl, ?_⟩
  · cases wu <;>
      simp [VersionInfo.make, VersionInfo.is_applicable_to, VersionInfo.is_compatible_with,
        VersionInfo.is_required_for, and_assoc]
  · intro h
    simp [VersionInfo.make, VersionInfo.is_applicable_to, VersionInfo.is_compatible_with] at *
    simp [h]

/-- C5 witnessed at a window `[3.0, 3.4]` with source `2.6` below
`works_since`. -/
theorem claim_C5_witness :
    (VersionInfo.make "3.0" "3.4" none none).is_applicable_to "2.6" "3.2" = false :=
  (claim_C5_ok "3.0" "3.4" none none "2.6" "3.2").2.2 rfl

/-- C6 counterexample: the unpacking fixer is not idempotent on every
tree. On `{**{**{"a": 1}}, "y": 2}` the first run returns
`{**{"a": 1}, "y": 2}` — which still carries an interleaved `**`
spread — and a second run collapses it further to `{"a": 1, "y": 2}`. -/
theorem claim_C6_counterexample :
    runUnpackingFixer c6_input = .ok (c6_once, emptyEffects) ∧
    runUnpackingFixer c6_once = .ok (c6_twice, emptyEffects) ∧
    c6_once ≠ c6_twice := by
  refine ⟨rfl, rfl, ?_⟩
  intro h
  simp [c6_once, c6_twice] at h

/-- C6 amended: applying the unpacking fixer to a tree all of whose
nodes are fully collapsed — no interleaved `*` or `**` spread and no
`dict(**dictlike)` splat pattern, which is the shape of fully-normalized
output — changes no node and adds nothing to `required_imports` or
`module_declarations` (the effect state passes through untouched). -/
theorem claim_C6_amended (m : Module) (h : moduleCollapsed m = true) (eff : Effects) :
    walk_stmtlist m eff = .ok (m, eff) ∧ runUnpackingFixer m = .ok (m, emptyEffects) :=
  ⟨walk_stmtlist_collapsed m h eff, walk_stmtlist_collapsed m h emptyEffects⟩

/-- C6 amended, witnessed on the collapsed tree `{"a": 1, "y": 2}`. -/
theorem claim_C6_amended_witness :
    moduleCollapsed c6_twice = true ∧ runUnpackingFixer c6_twice = .ok (c6_twice, emptyEffects) :=
  ⟨rfl, (claim_C6_amended c6_twice rfl emptyEffects).2⟩

/-- C7: all selected checkers run before any fixer and the run aborts on
the first violation raised: if every checker before `c` passes and `c`
raises, the pipeline reports exactly `c`'s violation no matter what later
checkers or the fixers would do; and whenever the pipeline produces a
tree, every selected checker passed, so no fixer ever ran on a tree with
a violation. -/
theorem claim_C7_ok :
    (∀ (chks1 : List Checker) (c : Checker) (chks2 : List Checker)
       (fxs : List FixerProc) (tree : Module) (e : String),
       (∀ c' ∈ chks1, c' tree = none) → c tree = some e →
       transpilePipeline (chks1 ++ c :: chks2) fxs tree = .error e) ∧
    (∀ (chks : List Checker) (fxs : List FixerProc) (tree : Module) (out : Module),
       transpilePipeline chks fxs tree = .ok out → ∀ c ∈ chks, c tree = none) := by
  constructor
  · intro chks1
    induction chks1 with
    | nil =>
      intro c chks2 fxs tree e _ hc
      simp [transpilePipeline, runCheckers, hc]
    | cons c0 rest ih =>
      intro c chks2 fxs tree e hnone hc
      have h0 : c0 tree = none := hnone c0 (by simp)
      have := ih c chks2 fxs tree e (fun c' hc' => hnone c' (by simp [hc'])) hc
      simpa [transpilePipeline, runCheckers, h0] using this
  · intro chks
    induction chks with
    | nil => intro fxs tree out _ c hc; simp at hc
    | cons c0 rest ih =>
      intro fxs tree out hok c hc
      rcases hc0 : c0 tree with _ | e0
      · rcases List.mem_cons.mp hc with hceq | hcmem
        · rw [hceq]; exact hc0
        · refine ih fxs tree out ?_ c hcmem
          simpa [transpilePipeline, runCheckers, hc0] using hok
      · exfalso
        simp [transpilePipeline, runCheckers, hc0] at hok

/-- C7 witnessed on a module with two independent violations (a star
import, first in the tree, and then a text-mode `open` call): the pipeline
with the full checker registry and a tree-changing fixer reports exactly
the open-mode violation — the first raised in execution order — and
returns no fixed tree. -/
theorem claim_C7_witness :
    transpilePipeline checkersInRegistryOrder [fun t => some (t ++ t)] c7_tree =
      .error ("Prohibited value " ++ "r" ++ " for argument mode of builtin.open. " ++
        "Only binary modes are allowed, use io.open as an alternative.") ∧
    (NoStarImports c7_tree).isSome = true := by
  have hasync : NoAsyncAwait c7_tree = none := by
    simp [NoAsyncAwait, isAsyncAwaitNode, findSome_const_none]
  have hopen : NoOpenWithEncodingChecker c7_tree =
      some ("Prohibited value " ++ "r" ++ " for argument mode of builtin.open. " ++
        "Only binary modes are allowed, use io.open as an alternative.") := by
    simp [NoOpenWithEncodingChecker, ast_walk, walkBFS, pyChildren, c7_tree,
      List.findSome?, checkOpenNode, openKeywordLoop, pyContainsChar]
  constructor
  · exact claim_C7_ok.1 [NoAsyncAwait] NoOpenWithEncodingChecker
      [NoOverriddenBuiltinsChecker, NoOverriddenStdlibImportsChecker, NoStarImports,
       NoThreeOnlyImports]
      [fun t => some (t ++ t)] c7_tree _
      (by intro c' hc'; rw [List.mem_singleton] at hc'; subst hc'; exact hasync) hopen
  · simp [NoStarImports, ast_walk, walkBFS, pyChildren, c7_tree, List.findSome?,
      noStarImportsNode]

/-- C8: a call whose only spread is a single trailing spread argument (no
element after it, no starred element before it, and no keyword spread)
makes both interleaving detectors report false, and `visit_expr` returns
the node structurally unchanged with untouched effects. -/
theorem claim_C8_ok (f v : Expr) (pre : List Expr) (kws : List (Option String × Expr))
    (hpre : ∀ e ∈ pre, isStarred e = false)
    (hkws : ∀ kw ∈ kws, (kw.1 : Option String) ≠ none) (eff : Effects) :
    has_stararg_g12n (.call f (pre ++ [.starred v]) kws) = false ∧
    has_starstararg_g12n (.call f (pre ++ [.starred v]) kws) = false ∧
    visit_expr (.call f (pre ++ [.starred v]) kws) eff =
      .ok (.call f (pre ++ [.starred v]) kws, eff) := by
  have h1 : has_stararg_g12n (.call f (pre ++ [.starred v]) kws) = false :=
    starargLoop_no_tail_interleave pre v hpre
  have h2 : has_starstararg_g12n (.call f (pre ++ [.starred v]) kws) = false :=
    kwstarLoopKeywords_no_spread kws hkws
  refine ⟨h1, h2, ?_⟩
  simp [visit_expr, h1, h2]
  rfl

/-- C8 witnessed on `f(1, *a, x=3)`. -/
theorem claim_C8_witness :
    visit_expr (.call (.name "f" .load) [.num 1, .starred (.name "a" .load)] [(some "x", .num 3)])
      emptyEffects =
    .ok (.call (.name "f" .load) [.num 1, .starred (.name "a" .load)] [(some "x", .num 3)],
      emptyEffects) :=
  (claim_C8_ok (.name "f" .load) (.name "a" .load) [.num 1] [(some "x", .num 3)]
    (by intro e he; rw [List.mem_singleton] at he; subst he; rfl)
    (by intro kw hkw; rw [List.mem_singleton] at hkw; subst hkw; simp)
    emptyEffects).2.2

/-- C9: every call to the bare name `open` in Load context with at most
one positional argument and no keyword named `mode` is rejected by the
open-mode checker: the mode defaults to `"r"`, which contains no `b`,
so the checker reports a violation (either the final non-binary-mode
error or a prohibited-keyword error raised on the way). -/
theorem claim_C9_ok (args : List Expr) (kws : List (Option String × Expr))
    (hargs : args.length ≤ 1) (hkws : ∀ kw ∈ kws, (kw.1 : Option String) ≠ some "mode") :
    (NoOpenWithEncodingChecker
      [.exprStmt (.call (.name "open" .load) args kws)]).isSome = true := by
  have hnode := checkOpenNode_isSome args kws hargs hkws
  obtain ⟨msg, hmsg⟩ := Option.isSome_iff_exists.mp hnode
  have hmod : ∀ m, checkOpenNode (.mod m) = none := fun _ => rfl
  have hstm : ∀ s, checkOpenNode (.stm s) = none := fun _ => rfl
  simp [NoOpenWithEncodingChecker, ast_walk, walkBFS, pyChildren, List.findSome?, hmsg,
    hmod, hstm]

/-- C9 witnessed on `open("f.txt")`. -/
theorem claim_C9_witness :
    (NoOpenWithEncodingChecker
      [.exprStmt (.call (.name "open" .load) [.str "f.txt"] [])]).isSome = true :=
  claim_C9_ok [.str "f.txt"] [] (by simp) (by simp)

/-- C10: during the fixer's walk, a call to the bare name `dict` with no
positional argument and exactly one keyword-spread whose walked operand
is a dict literal or another `dict(..)` call is replaced by that operand
itself — the input needs no interleaved spreads for this to fire. -/
theorem claim_C10_ok (v v' : Expr) (eff eff' : Effects)
    (hwalk : walk_node v eff = .ok (v', eff'))
    (hdictish : (is_dict_call v' || isDictLiteral v') = true) :
    walk_node (.call (.name "dict" .load) [] [(none, v)]) eff = .ok (v', eff') := by
  have hkw : walkKeywords [(none, v)] eff = .ok ([(none, v')], eff') := by
    simp [walkKeywords, hwalk, Bind.bind, Except.bind, Pure.pure, Except.pure]
  have houter : is_dict_call (.call (.name "dict" .load) [] [(none, v')]) = true := rfl
  have hsplat : singleDictSplatValue (.call (.name "dict" .load) [] [(none, v')]) = some v' := by
    simp [singleDictSplatValue, houter, hdictish]
  have hvisit : visit_expr (.call (.name "dict" .load) [] [(none, v')]) eff' =
      .ok (.call (.name "dict" .load) [] [(none, v')], eff') := by
    simp [visit_expr, has_stararg_g12n, has_starstararg_g12n, starargLoop, kwstarLoopKeywords,
      isArgUnpackNode, isKwArgUnpackNode, Bind.bind, Except.bind, Pure.pure, Except.pure]
  have hpost : postWalk (.call (.name "dict" .load) [] [(none, v')]) eff' = .ok (v', eff') := by
    simp [postWalk, hvisit, hsplat, Bind.bind, Except.bind]
  simp only [walk_node, walkExprList, Bind.bind, Except.bind, Pure.pure, Except.pure, hkw, hpost]

/-- C10 witnessed on `dict(**{"a": 1})`, which becomes `{"a": 1}`. -/
theorem claim_C10_witness :
    walk_node (.call (.name "dict" .load) [] [(none, .dict [(some (.str "a"), .num 1)])])
      emptyEffects =
    .ok (.dict [(some (.str "a"), .num 1)], emptyEffects) :=
  claim_C10_ok _ _ _ _ rfl rfl

end ThreeToSix
